import Mathlib

/-!
# Verification of `log/logger.go` (package `log`)

Shallow embedding of the levelled logger in `log/logger.go`. Side effects are
made explicit: an emit call returns the list of strings written to the sink
and the list of events submitted to the Riemann client (tagged with the
identity of the client that received them). The wall-clock timestamp
(`time.Now().Format(time.RFC3339)`) is passed in as a string parameter `now`,
and Go's `fmt.Sprintf` applied to a format string with a non-empty argument
list is abstracted as a function parameter `sprintf`; the `fmt.Fprintf` call
of `printLine`, whose operand list is empty, is modelled concretely by
`fprintfNoArgs`, an embedding of Go fmt's `doPrintf` specialized to zero
operands (so `%` directives in the rendered line are processed, not copied).
-/

namespace GoLog

/-- Embedding of Go `strings.ToUpper`: per-character uppercasing.
`Char.toUpper` agrees with Go exactly on ASCII characters; Go additionally
applies Unicode simple case mappings (for example U+0131 to `I`), which this
model does not carry, so theorems that quantify over arbitrary level strings
restrict themselves to ASCII inputs, where the model is exact. -/
def goToUpper (s : String) : String := ⟨s.data.map Char.toUpper⟩

/-- Go constant `LogOff = 0`. -/
def LogOff : Int := 0

/-- Go constant `LogFatal = 1`. -/
def LogFatal : Int := 1

/-- Go constant `LogError = 2`. -/
def LogError : Int := 2

/-- Go constant `LogWarn = 3`. -/
def LogWarn : Int := 3

/-- Go constant `LogInfo = 4`. -/
def LogInfo : Int := 4

/-- Go constant `LogDebug = 5`. -/
def LogDebug : Int := 5

/-- Go constant `LogTrace = 6`. -/
def LogTrace : Int := 6

/-- Go constant `LogAll = 7`. -/
def LogAll : Int := 7

/-- `intToLogLevel` from logger.go: converts an integer into a human readable
log level; every integer outside the eight cases falls through to `"ALL"`. -/
def intToLogLevel (i : Int) : String :=
  if i = LogOff then "OFF"
  else if i = LogFatal then "FATAL"
  else if i = LogError then "ERROR"
  else if i = LogWarn then "WARN"
  else if i = LogInfo then "INFO"
  else if i = LogDebug then "DEBUG"
  else if i = LogTrace then "TRACE"
  else if i = LogAll then "ALL"
  else "ALL"

/-- `logLevelToInt` from logger.go: converts a human readable log level into
an integer value; the input is uppercased first and any unrecognized name
yields `-1`. -/
def logLevelToInt (level : String) : Int :=
  let levelUpper := goToUpper level
  if levelUpper = "OFF" then LogOff
  else if levelUpper = "FATAL" then LogFatal
  else if levelUpper = "ERROR" then LogError
  else if levelUpper = "WARN" then LogWarn
  else if levelUpper = "INFO" then LogInfo
  else if levelUpper = "DEBUG" then LogDebug
  else if levelUpper = "TRACE" then LogTrace
  else if levelUpper = "ALL" then LogAll
  else -1

/-- `LoggerConfig` from logger.go: prefix string, level name, timestamp flag. -/
structure LoggerConfig where
  Prefix : String
  LogLevel : String
  AddTimeStamp : Bool
deriving DecidableEq, Repr

/-- `DefaultLoggerConfig` from logger.go. -/
def DefaultLoggerConfig : LoggerConfig :=
  { Prefix := "service", LogLevel := "INFO", AddTimeStamp := true }

/-- Identity of a `*RiemannClient` pointer target; only which client a
reference designates is observable from logger.go, so a client reference is
modelled as `Option ClientId`, with `none` for the nil pointer. -/
abbrev ClientId := Nat

/-- `RiemannEvent`, as constructed in `Logger.sendRiemann`: service name,
state and description strings. (The struct is declared outside logger.go; its
three fields are exactly those set by the composite literal in
`sendRiemann`.) -/
structure RiemannEvent where
  Service : String
  State : String
  Description : String
deriving DecidableEq, Repr

/-- Modelled from the spec: the `NilClient` error value `ErrClientNil`,
declared outside `logger.go` (only its identity is observable; `UseRiemann`
returns it when handed a nil client). -/
inductive RiemannError where
  | ErrClientNil
deriving DecidableEq, Repr

/-- `Logger` from logger.go. The output sink `stream` is not part of the
state: writes to it are returned by the emit operations instead. -/
structure Logger where
  config : LoggerConfig
  level : Int
  riemannClient : Option ClientId
deriving DecidableEq, Repr

/-- `NewLogger` from logger.go: resolves the configured level name to a rank
via `logLevelToInt` and stores it; `riemannClient` starts out nil. -/
def NewLogger (config : LoggerConfig) : Logger :=
  { config := config, level := logLevelToInt config.LogLevel, riemannClient := none }

/-- `Logger.NewModule` from logger.go: copies the configuration, appends the
given suffix to the prefix (`fmt.Sprintf("%v%v", ...)` on two strings is
plain concatenation) and keeps the same resolved level and client
reference. -/
def Logger.NewModule (l : Logger) (pfx : String) : Logger :=
  { config := { l.config with Prefix := l.config.Prefix ++ pfx },
    level := l.level,
    riemannClient := l.riemannClient }

/-- `Logger.UseRiemann` from logger.go: returns the logger state after the
call together with the returned error; a nil client yields `ErrClientNil`
and leaves the state unchanged, otherwise the client reference is rebound. -/
def Logger.UseRiemann (l : Logger) (client : Option ClientId) :
    Logger × Option RiemannError :=
  match client with
  | none => (l, some RiemannError.ErrClientNil)
  | some c => ({ l with riemannClient := some c }, none)

/-- Go fmt: the flag characters consumed after a `%` in `doPrintf`. -/
def isFmtFlag (c : Char) : Bool :=
  c = '#' || c = '0' || c = '+' || c = '-' || c = ' '

/-- Go fmt `parsenum`: greedily parse a decimal number, accumulating into
`num`/`isnum`; once the accumulated value exceeds 10^6 with digits left
(`tooLarge`), the scan aborts consuming the remaining input. Returns the
parsed value, whether any digit was seen, and the remaining input. -/
def parsenum : List Char → Nat → Bool → Nat × Bool × List Char
  | [], num, isnum => (num, isnum, [])
  | c :: rest, num, isnum =>
    if c.isDigit then
      if num > 1000000 then (0, false, [])
      else parsenum rest (num * 10 + (c.toNat - 48)) true
    else (num, isnum, c :: rest)

/-- Go fmt `argNumber`/`parseArgNumber` specialized to zero operands: when
the input starts with an argument index `[n]`, consume it; since no operand
can be in range, any index expression clears `goodArgNum`. Returns the
remaining input, the new `afterIndex` flag (true only for a well-formed
bracketed number), and whether an index expression was seen. -/
def argNumberZero (l : List Char) : List Char × Bool × Bool :=
  match l with
  | '[' :: t =>
    if t.length < 2 then (t, false, true)
    else
      match t.dropWhile (fun c => c != ']') with
      | ']' :: after =>
        let inner := t.takeWhile (fun c => c != ']')
        let p := parsenum inner 0 false
        (after, p.2.1 && p.2.2.isEmpty, true)
      | _ => (t, false, true)
  | _ => (l, false, false)

/-- Go fmt `doPrintf`, width step with zero operands: a `*` consumes no
operand and emits `%!(BADWIDTH)`; otherwise digits are parsed, and a width
right after an index (`%[3]2d`) clears `goodArgNum`. Returns emitted text,
remaining input, `afterIndex` and `goodArgNum`. -/
def widthZero (afterIndex good : Bool) (l : List Char) :
    String × List Char × Bool × Bool :=
  match l with
  | '*' :: t => ("%!(BADWIDTH)", t, false, good)
  | _ =>
    let p := parsenum l 0 false
    ("", p.2.2, afterIndex, if afterIndex && p.2.1 then false else good)

/-- Go fmt `doPrintf`, precision step with zero operands: after a `.`, a
precision following an index clears `goodArgNum`, an argument index may
appear, a `*` emits `%!(BADPREC)`, otherwise digits are parsed. -/
def precZero (afterIndex good : Bool) (l : List Char) :
    String × List Char × Bool × Bool :=
  match l with
  | '.' :: t =>
    let g1 := if afterIndex then false else good
    let a := argNumberZero t
    let g2 := if a.2.2 then false else g1
    match a.1 with
    | '*' :: u => ("%!(BADPREC)", u, false, g2)
    | t2 =>
      let p := parsenum t2 0 false
      ("", p.2.2, a.2.1, g2)
  | _ => ("", l, afterIndex, good)

/-- Go fmt `doPrintf`, trailing argument-index step: only taken when no
index was parsed yet. -/
def trailZero (afterIndex good : Bool) (l : List Char) : List Char × Bool :=
  if afterIndex then (l, good)
  else
    let a := argNumberZero l
    (a.1, if a.2.2 then false else good)

/-- Go fmt `doPrintf`, verb step with zero operands: an exhausted format
emits `%!(NOVERB)`; the verb `%` emits a literal percent; with a bad
argument index the verb emits `%!v(BADINDEX)`, otherwise — no operand being
left — `%!v(MISSING)`. -/
def verbZero (good : Bool) (l : List Char) : String × List Char :=
  match l with
  | [] => ("%!(NOVERB)", [])
  | v :: t =>
    if v = '%' then ("%", t)
    else if good then ("%!" ++ v.toString ++ "(MISSING)", t)
    else ("%!" ++ v.toString ++ "(BADINDEX)", t)

/-- Go fmt `doPrintf`, one whole `%` directive with zero operands: flags,
optional argument index, width, precision, trailing index, then the verb.
Returns the emitted text and the remaining format. -/
def percentZero (l : List Char) : String × List Char :=
  let r1 := l.dropWhile isFmtFlag
  let a := argNumberZero r1
  let w := widthZero a.2.1 (!a.2.2) a.1
  let p := precZero w.2.2.1 w.2.2.2 w.2.1
  let t := trailZero p.2.2.1 p.2.2.2 p.2.1
  let v := verbZero t.2 t.1
  (w.1 ++ p.1 ++ v.1, v.2)

/-- Go fmt `doPrintf` with an empty operand list: literal text is copied
verbatim and each `%` directive is processed by `percentZero`. The fuel is
only structural bookkeeping: every step consumes at least one character, so
`fuel = length` never exhausts (`fprintfLoop_congr` below). -/
def fprintfLoop : Nat → List Char → List Char
  | _, [] => []
  | 0, _ :: _ => []
  | fuel + 1, c :: rest =>
    if c = '%' then
      let p := percentZero rest
      p.1.data ++ fprintfLoop fuel p.2
    else c :: fprintfLoop fuel rest

/-- Go `fmt.Fprintf` applied to a format string with no operands, as in
`printLine`: the string actually written to the sink. -/
def fprintfNoArgs (s : String) : String := ⟨fprintfLoop s.data.length s.data⟩

/-- The type abstracting Go `fmt.Sprintf` applied to a format string and a
non-empty-or-empty variadic argument list (arguments modelled as strings). -/
abbrev Sprintf := String → List String → String

/-- `Logger.printf` from logger.go: the single string written to the sink by
one formatted-variant print. The inner `fmt.Sprintf("%v%v | %v | %v", ...)`
on strings is concatenation; the outer `fmt.Fprintf` applies the variadic
arguments to that template. -/
def Logger.printf (l : Logger) (sprintf : Sprintf) (now message level : String)
    (other : List String) : String :=
  let timestampStr := if l.config.AddTimeStamp then now ++ " | " else ""
  sprintf (timestampStr ++ level ++ " | " ++ l.config.Prefix ++ " | " ++ message) other

/-- `Logger.printLine` from logger.go: the single string written to the sink
by one line-variant print. The rendered template (built by the inner
`fmt.Sprintf` on plain strings, which is concatenation) is passed as the
format argument of a `fmt.Fprintf` call with no operands, so any `%`
directives inside it — including ones coming from the message or the
prefix — are processed by Go fmt rather than copied. -/
def Logger.printLine (l : Logger) (now message level : String) : String :=
  let timestampStr := if l.config.AddTimeStamp then now ++ " | " else ""
  fprintfNoArgs
    (timestampStr ++ level ++ " | " ++ l.config.Prefix ++ " | " ++ message ++ "\n")

/-- `Logger.sendRiemann` from logger.go: if a client is attached, submit one
event whose service is the prefix, state the level name, and description the
formatted message; otherwise do nothing. The result is the list of
(receiving client, event) submissions made by the call. -/
def Logger.sendRiemann (l : Logger) (sprintf : Sprintf) (message level : String)
    (other : List String) : List (ClientId × RiemannEvent) :=
  match l.riemannClient with
  | some c =>
    [(c, { Service := l.config.Prefix, State := level,
           Description := sprintf message other })]
  | none => []

/-- Observable output of one emit call: the sink writes and the client
submissions it performed, in order. -/
abbrev EmitOut := List String × List (ClientId × RiemannEvent)

/-- `Logger.Fatalf` from logger.go. -/
def Logger.Fatalf (l : Logger) (sprintf : Sprintf) (now message : String)
    (other : List String) : EmitOut :=
  ((if LogFatal ≤ l.level then [l.printf sprintf now message "FATAL" other] else []),
   l.sendRiemann sprintf message "FATAL" other)

/-- `Logger.Errorf` from logger.go. -/
def Logger.Errorf (l : Logger) (sprintf : Sprintf) (now message : String)
    (other : List String) : EmitOut :=
  ((if LogError ≤ l.level then [l.printf sprintf now message "ERROR" other] else []),
   l.sendRiemann sprintf message "ERROR" other)

/-- `Logger.Warnf` from logger.go. -/
def Logger.Warnf (l : Logger) (sprintf : Sprintf) (now message : String)
    (other : List String) : EmitOut :=
  ((if LogWarn ≤ l.level then [l.printf sprintf now message "WARN" other] else []),
   l.sendRiemann sprintf message "WARN" other)

/-- `Logger.Infof` from logger.go. -/
def Logger.Infof (l : Logger) (sprintf : Sprintf) (now message : String)
    (other : List String) : EmitOut :=
  ((if LogInfo ≤ l.level then [l.printf sprintf now message "INFO" other] else []),
   l.sendRiemann sprintf message "INFO" other)

/-- `Logger.Debugf` from logger.go: no `sendRiemann` call. -/
def Logger.Debugf (l : Logger) (sprintf : Sprintf) (now message : String)
    (other : List String) : EmitOut :=
  ((if LogDebug ≤ l.level then [l.printf sprintf now message "DEBUG" other] else []),
   [])

/-- `Logger.Tracef` from logger.go: no `sendRiemann` call. -/
def Logger.Tracef (l : Logger) (sprintf : Sprintf) (now message : String)
    (other : List String) : EmitOut :=
  ((if LogTrace ≤ l.level then [l.printf sprintf now message "TRACE" other] else []),
   [])

/-- `Logger.Fatalln` from logger.go; its `sendRiemann` call passes no
variadic arguments. -/
def Logger.Fatalln (l : Logger) (sprintf : Sprintf) (now message : String) : EmitOut :=
  ((if LogFatal ≤ l.level then [l.printLine now message "FATAL"] else []),
   l.sendRiemann sprintf message "FATAL" [])

/-- `Logger.Errorln` from logger.go. -/
def Logger.Errorln (l : Logger) (sprintf : Sprintf) (now message : String) : EmitOut :=
  ((if LogError ≤ l.level then [l.printLine now message "ERROR"] else []),
   l.sendRiemann sprintf message "ERROR" [])

/-- `Logger.Warnln` from logger.go. -/
def Logger.Warnln (l : Logger) (sprintf : Sprintf) (now message : String) : EmitOut :=
  ((if LogWarn ≤ l.level then [l.printLine now message "WARN"] else []),
   l.sendRiemann sprintf message "WARN" [])

/-- `Logger.Infoln` from logger.go. -/
def Logger.Infoln (l : Logger) (sprintf : Sprintf) (now message : String) : EmitOut :=
  ((if LogInfo ≤ l.level then [l.printLine now message "INFO"] else []),
   l.sendRiemann sprintf message "INFO" [])

/-- `Logger.Debugln` from logger.go: no `sendRiemann` call. -/
def Logger.Debugln (l : Logger) (now message : String) : EmitOut :=
  ((if LogDebug ≤ l.level then [l.printLine now message "DEBUG"] else []), [])

/-- `Logger.Traceln` from logger.go: no `sendRiemann` call. -/
def Logger.Traceln (l : Logger) (now message : String) : EmitOut :=
  ((if LogTrace ≤ l.level then [l.printLine now message "TRACE"] else []), [])

/-- The six message severities exposed by the emit entry points. -/
inductive Severity where
  | Fatal | Error | Warn | Info | Debug | Trace
deriving DecidableEq, Repr

/-- The rank each severity's entry point compares against the threshold. -/
def Severity.rank : Severity → Int
  | .Fatal => LogFatal
  | .Error => LogError
  | .Warn => LogWarn
  | .Info => LogInfo
  | .Debug => LogDebug
  | .Trace => LogTrace

/-- The level-name string each severity's entry point hardcodes. -/
def Severity.name : Severity → String
  | .Fatal => "FATAL"
  | .Error => "ERROR"
  | .Warn => "WARN"
  | .Info => "INFO"
  | .Debug => "DEBUG"
  | .Trace => "TRACE"

/-- Dispatcher over the six formatted-variant entry points. -/
def Logger.emitf (l : Logger) (L : Severity) (sprintf : Sprintf)
    (now message : String) (other : List String) : EmitOut :=
  match L with
  | .Fatal => l.Fatalf sprintf now message other
  | .Error => l.Errorf sprintf now message other
  | .Warn => l.Warnf sprintf now message other
  | .Info => l.Infof sprintf now message other
  | .Debug => l.Debugf sprintf now message other
  | .Trace => l.Tracef sprintf now message other

/-- Dispatcher over the six line-variant entry points. -/
def Logger.emitln (l : Logger) (L : Severity) (sprintf : Sprintf)
    (now message : String) : EmitOut :=
  match L with
  | .Fatal => l.Fatalln sprintf now message
  | .Error => l.Errorln sprintf now message
  | .Warn => l.Warnln sprintf now message
  | .Info => l.Infoln sprintf now message
  | .Debug => l.Debugln now message
  | .Trace => l.Traceln now message

end GoLog

namespace GoLog

/-- Helper: `dropWhile` never lengthens a list. -/
theorem dropWhile_length_le (p : Char → Bool) (l : List Char) :
    (l.dropWhile p).length ≤ l.length := by
  induction l with
  | nil => simp
  | cons c rest ih =>
    rw [List.dropWhile_cons]
    split
    · exact le_trans ih (by simp)
    · simp

/-- Helper: `parsenum` never lengthens its input. -/
theorem parsenum_length_le (l : List Char) (num : Nat) (isnum : Bool) :
    (parsenum l num isnum).2.2.length ≤ l.length := by
  induction l generalizing num isnum with
  | nil => simp [parsenum]
  | cons c rest ih =>
    simp only [parsenum]
    split
    · split
      · simp
      · exact le_trans (ih _ _) (by simp)
    · simp

/-- Helper: `argNumberZero` never lengthens its input. -/
theorem argNumberZero_length_le (l : List Char) :
    (argNumberZero l).1.length ≤ l.length := by
  unfold argNumberZero
  split
  · rename_i t
    split
    · simp
    · split
      · rename_i after heq
        have h1 := dropWhile_length_le (fun c => c != ']') t
        rw [heq] at h1
        simp only [List.length_cons] at h1 ⊢
        omega
      · simp
  · exact le_refl _

/-- Helper: `widthZero` never lengthens its input. -/
theorem widthZero_length_le (a g : Bool) (l : List Char) :
    (widthZero a g l).2.1.length ≤ l.length := by
  unfold widthZero
  split
  · simp
  · exact parsenum_length_le _ _ _

/-- Helper: `precZero` never lengthens its input. -/
theorem precZero_length_le (a g : Bool) (l : List Char) :
    (precZero a g l).2.1.length ≤ l.length := by
  simp only [precZero]
  split
  · rename_i t
    have ha := argNumberZero_length_le t
    split
    · rename_i u heq
      rw [heq] at ha
      simp only [List.length_cons] at ha ⊢
      omega
    · exact le_trans (parsenum_length_le (argNumberZero t).1 0 false)
        (le_trans ha (Nat.le_succ _))
  · exact le_refl _

/-- Helper: `trailZero` never lengthens its input. -/
theorem trailZero_length_le (a g : Bool) (l : List Char) :
    (trailZero a g l).1.length ≤ l.length := by
  unfold trailZero
  split
  · exact le_refl _
  · exact argNumberZero_length_le _

/-- Helper: `verbZero` never lengthens its input. -/
theorem verbZero_length_le (g : Bool) (l : List Char) :
    (verbZero g l).2.length ≤ l.length := by
  unfold verbZero
  split
  · simp
  · split
    · simp
    · split <;> simp

/-- Helper: processing one `%` directive never lengthens the remaining
format. -/
theorem percentZero_length_le (l : List Char) :
    (percentZero l).2.length ≤ l.length :=
  le_trans (verbZero_length_le _ _)
    (le_trans (trailZero_length_le _ _ _)
      (le_trans (precZero_length_le _ _ _)
        (le_trans (widthZero_length_le _ _ _)
          (le_trans (argNumberZero_length_le _) (dropWhile_length_le _ _)))))

/-- Helper: any fuel at least the length of the input gives the same result,
so `fprintfLoop length` is the total Go semantics (each step consumes at
least one character). -/
theorem fprintfLoop_congr (f1 : Nat) : ∀ (f2 : Nat) (l : List Char),
    l.length ≤ f1 → l.length ≤ f2 → fprintfLoop f1 l = fprintfLoop f2 l := by
  induction f1 with
  | zero =>
    intro f2 l h1 _
    have : l = [] := List.length_eq_zero.mp (Nat.le_zero.mp h1)
    subst this
    cases f2 <;> rfl
  | succ n ih =>
    intro f2 l h1 h2
    cases l with
    | nil => cases f2 <;> rfl
    | cons c rest =>
      obtain ⟨m, rfl⟩ : ∃ m, f2 = m + 1 := ⟨f2 - 1, by simp at h2; omega⟩
      simp only [List.length_cons] at h1 h2
      have hr := percentZero_length_le rest
      simp only [fprintfLoop]
      split
      · rw [ih m (percentZero rest).2 (by omega) (by omega)]
      · rw [ih m rest (by omega) (by omega)]

/-- Helper: on a format free of `%`, `fprintfLoop` copies the input
verbatim. -/
theorem fprintfLoop_verbatim (fuel : Nat) : ∀ l : List Char,
    l.length ≤ fuel → '%' ∉ l → fprintfLoop fuel l = l := by
  induction fuel with
  | zero =>
    intro l h1 _
    have : l = [] := List.length_eq_zero.mp (Nat.le_zero.mp h1)
    subst this
    rfl
  | succ n ih =>
    intro l h1 h2
    cases l with
    | nil => rfl
    | cons c rest =>
      simp only [fprintfLoop]
      rw [if_neg (fun hc => h2 (by simp [hc]))]
      rw [ih rest (by simp at h1; omega) (fun hm => h2 (List.mem_cons_of_mem c hm))]

/-- Helper: Go `fmt.Fprintf` with no operands writes a `%`-free format
string verbatim. -/
theorem fprintfNoArgs_verbatim (s : String) (h : '%' ∉ s.data) :
    fprintfNoArgs s = s := by
  obtain ⟨d⟩ := s
  simp only [fprintfNoArgs]
  rw [fprintfLoop_verbatim _ _ (le_refl _) h]

/-- Helper: `%` is absent from a concatenation when absent from both
parts. -/
theorem percent_not_mem_append (s t : String) (hs : '%' ∉ s.data)
    (ht : '%' ∉ t.data) : '%' ∉ (s ++ t).data := by
  rw [String.data_append]
  intro h
  rcases List.mem_append.mp h with h | h
  · exact hs h
  · exact ht h

/-- C7: for every rank `r` in the defined domain `{0..7}`, converting `r` to
its name and the name back to a rank yields `r` again:
`logLevelToInt (intToLogLevel r) = r`. -/
theorem logLevelToInt_intToLogLevel (r : Int) (h0 : 0 ≤ r) (h7 : r ≤ 7) :
    logLevelToInt (intToLogLevel r) = r := by
  interval_cases r <;> decide

/-- Witness for C7: the round trip at the concrete rank `4` (`"INFO"`). -/
theorem logLevelToInt_intToLogLevel_witness :
    logLevelToInt (intToLogLevel 4) = 4 :=
  logLevelToInt_intToLogLevel 4 (by decide) (by decide)

/-- Two strings are case variants when they agree character by character
after uppercasing. -/
def CaseVariant (s t : String) : Prop :=
  s.data.map Char.toUpper = t.data.map Char.toUpper

instance (s t : String) : Decidable (CaseVariant s t) := by
  unfold CaseVariant; infer_instance

/-- C8: the name-to-rank conversion is case-insensitive: any two case
variants of the same string resolve to the same rank. -/
theorem logLevelToInt_caseInsensitive (s t : String) (h : CaseVariant s t) :
    logLevelToInt s = logLevelToInt t := by
  have hU : goToUpper s = goToUpper t := congrArg String.mk h
  simp only [logLevelToInt, hU]

/-- Witness for C8: `"info"`, `"INFO"` and `"Info"` all resolve to the same
rank, namely `4`. -/
theorem logLevelToInt_caseInsensitive_witness :
    logLevelToInt "info" = logLevelToInt "INFO"
    ∧ logLevelToInt "INFO" = logLevelToInt "Info"
    ∧ logLevelToInt "INFO" = 4 :=
  ⟨logLevelToInt_caseInsensitive "info" "INFO" (by decide),
   logLevelToInt_caseInsensitive "INFO" "Info" (by decide),
   by decide⟩

/-- C9: the rank-to-name conversion is total: outside the defined range
`{0..7}` it returns `"ALL"`, and on each defined rank it returns that rank's
name. -/
theorem intToLogLevel_total (r : Int) :
    (r < 0 ∨ 7 < r → intToLogLevel r = "ALL")
    ∧ ∀ p ∈ ([(0, "OFF"), (1, "FATAL"), (2, "ERROR"), (3, "WARN"),
        (4, "INFO"), (5, "DEBUG"), (6, "TRACE"), (7, "ALL")] :
        List (Int × String)), intToLogLevel p.1 = p.2 := by
  refine ⟨?_, by decide⟩
  intro h
  simp only [intToLogLevel, LogOff, LogFatal, LogError, LogWarn, LogInfo,
    LogDebug, LogTrace, LogAll]
  split_ifs <;> first | rfl | (exfalso; omega)

/-- Witness for C9: the out-of-range ranks `99` and `-5` both render as
`"ALL"`, and the defined rank `0` renders as `"OFF"`. -/
theorem intToLogLevel_total_witness :
    intToLogLevel 99 = "ALL" ∧ intToLogLevel (-5) = "ALL"
    ∧ intToLogLevel 0 = "OFF" :=
  ⟨(intToLogLevel_total 99).1 (by omega), (intToLogLevel_total (-5)).1 (by omega),
   (intToLogLevel_total 0).2 (0, "OFF") (by decide)⟩

/-- C1: for every severity `L` and every logger whose resolved threshold rank
is `l.level`, a console-emit call (formatted or line variant) at `L` writes
exactly one rendered line to the sink when `L.rank ≤ l.level` and writes
nothing otherwise. -/
theorem console_gate (l : Logger) (L : Severity) (sprintf : Sprintf)
    (now message : String) (other : List String) :
    (l.emitf L sprintf now message other).1.length
      = (if L.rank ≤ l.level then 1 else 0)
    ∧ (l.emitln L sprintf now message).1.length
      = (if L.rank ≤ l.level then 1 else 0) := by
  cases L <;>
    simp only [Logger.emitf, Logger.emitln, Logger.Fatalf, Logger.Errorf,
      Logger.Warnf, Logger.Infof, Logger.Debugf, Logger.Tracef,
      Logger.Fatalln, Logger.Errorln, Logger.Warnln, Logger.Infoln,
      Logger.Debugln, Logger.Traceln, Severity.rank] <;>
    constructor <;> split <;> simp

/-- C2: for every logger with a forwarding client attached, each emit call at
Fatal, Error, Warn or Info submits exactly one
`Event{service=prefix, state=level name, description=formatted message}` to
that client, regardless of the console gate; emit calls at Debug and Trace
never submit an event, for any threshold. -/
theorem forwarding_gate (l l' : Logger) (c : ClientId) (sprintf : Sprintf)
    (now message : String) (other : List String)
    (h : l.riemannClient = some c) :
    (∀ L : Severity, (L = .Fatal ∨ L = .Error ∨ L = .Warn ∨ L = .Info) →
      (l.emitf L sprintf now message other).2
        = [(c, { Service := l.config.Prefix, State := L.name,
                 Description := sprintf message other })]
      ∧ (l.emitln L sprintf now message).2
        = [(c, { Service := l.config.Prefix, State := L.name,
                 Description := sprintf message [] })])
    ∧ (∀ L : Severity, (L = .Debug ∨ L = .Trace) →
      (l'.emitf L sprintf now message other).2 = []
      ∧ (l'.emitln L sprintf now message).2 = []) := by
  constructor
  · rintro L (rfl | rfl | rfl | rfl) <;>
      simp [Logger.emitf, Logger.emitln, Logger.Fatalf, Logger.Errorf,
        Logger.Warnf, Logger.Infof, Logger.Fatalln, Logger.Errorln,
        Logger.Warnln, Logger.Infoln, Logger.sendRiemann, Severity.name, h]
  · rintro L (rfl | rfl) <;>
      simp [Logger.emitf, Logger.emitln, Logger.Debugf, Logger.Tracef,
        Logger.Debugln, Logger.Traceln]

/-- Witness for C2: a logger with threshold rank `0` (console gate fails even
for Fatal) and client `7` attached still submits exactly one event on
`Fatalf`, and `Tracef` submits none. -/
theorem forwarding_gate_witness :
    (({ config := DefaultLoggerConfig, level := 0, riemannClient := some 7 :
          Logger }).emitf Severity.Fatal (fun m _ => m) "T" "msg" []).2
      = [(7, { Service := "service", State := "FATAL", Description := "msg" })]
    ∧ (({ config := DefaultLoggerConfig, level := 0, riemannClient := some 7 :
          Logger }).emitf Severity.Trace (fun m _ => m) "T" "msg" []).2 = [] := by
  have h := forwarding_gate
    { config := DefaultLoggerConfig, level := 0, riemannClient := some 7 }
    { config := DefaultLoggerConfig, level := 0, riemannClient := some 7 }
    7 (fun m _ => m) "T" "msg" [] rfl
  exact ⟨(h.1 Severity.Fatal (Or.inl rfl)).1, (h.2 Severity.Trace (Or.inr rfl)).1⟩

/-- C3 (amended): with `AddTimeStamp = false`, a line-variant emit that
passes the console gate and whose message and prefix contain no `%` writes
to the sink exactly `LEVEL | prefix | message` followed by a newline, with no
timestamp segment and the message taken verbatim. (A `%` in the message or
prefix reaches `fmt.Fprintf` as part of the format string and is processed
as a directive, so the frozen for-every-message form is false: see
`printLine_percent_counterexample`.) -/
theorem printLine_no_timestamp (l : Logger) (L : Severity) (sprintf : Sprintf)
    (now message : String) (h1 : l.config.AddTimeStamp = false)
    (h2 : L.rank ≤ l.level) (hm : '%' ∉ message.data)
    (hp : '%' ∉ l.config.Prefix.data) :
    (l.emitln L sprintf now message).1
      = [L.name ++ " | " ++ l.config.Prefix ++ " | " ++ message ++ "\n"] := by
  cases L <;>
    simp_all [Logger.emitln, Logger.Fatalln, Logger.Errorln, Logger.Warnln,
      Logger.Infoln, Logger.Debugln, Logger.Traceln, Logger.printLine,
      Severity.rank, Severity.name] <;>
    rw [fprintfNoArgs_verbatim] <;>
    repeat'
      first
        | exact hm
        | exact hp
        | decide
        | refine percent_not_mem_append _ _ ?_ ?_

/-- Witness for C3: the spec's end-to-end example — configuration
`{prefix="svc", level="WARN", timestamp=false}`, `Warnln "disk low"` writes
exactly `"WARN | svc | disk low\n"`. -/
theorem printLine_no_timestamp_witness :
    ((NewLogger { Prefix := "svc", LogLevel := "WARN", AddTimeStamp := false
        }).emitln Severity.Warn (fun m _ => m) "T" "disk low").1
      = ["WARN | svc | disk low\n"] := by
  have h := printLine_no_timestamp
    (NewLogger { Prefix := "svc", LogLevel := "WARN", AddTimeStamp := false })
    Severity.Warn (fun m _ => m) "T" "disk low" rfl (by decide) (by decide)
    (by decide)
  simpa using h

/-- Counterexample to C3 as frozen: on configuration
`{prefix="svc", level="WARN", timestamp=false}`, `Warnln "100% done"` does
not write `"WARN | svc | 100% done\n"` — the `%` followed by the space flag
and the verb `d` is consumed by `fmt.Fprintf` with no operand, producing
`"WARN | svc | 100%!d(MISSING)one\n"`. -/
theorem printLine_percent_counterexample :
    ((NewLogger { Prefix := "svc", LogLevel := "WARN", AddTimeStamp := false
        }).emitln Severity.Warn (fun m _ => m) "T" "100% done").1
      = ["WARN | svc | 100%!d(MISSING)one\n"]
    ∧ ((NewLogger { Prefix := "svc", LogLevel := "WARN", AddTimeStamp := false
        }).emitln Severity.Warn (fun m _ => m) "T" "100% done").1
      ≠ ["WARN | svc | 100% done\n"] := by
  constructor
  · decide
  · decide

/-- C5: a child derived via `NewModule s` has prefix `parent.Prefix ++ s`
(no separator inserted); registering a client on the (functional) parent does
not alter its configuration; and the child's client reference is a snapshot:
after registering `f1`, deriving, then registering `f2` on the parent, the
parent holds `f2` while the child still holds — and forwards to — `f1`. -/
theorem newModule_snapshot (l : Logger) (s : String) (f1 f2 : ClientId)
    (sprintf : Sprintf) (now message : String) :
    ((l.UseRiemann (some f1)).1.NewModule s).config.Prefix = l.config.Prefix ++ s
    ∧ ((l.UseRiemann (some f1)).1.NewModule s).riemannClient = some f1
    ∧ (((l.UseRiemann (some f1)).1.UseRiemann (some f2)).1).riemannClient = some f2
    ∧ ((l.UseRiemann (some f1)).1).config = l.config
    ∧ (((l.UseRiemann (some f1)).1.UseRiemann (some f2)).1).config = l.config
    ∧ (((l.UseRiemann (some f1)).1.NewModule s).Infoln sprintf now message).2
        = [(f1, { Service := l.config.Prefix ++ s, State := "INFO",
                  Description := sprintf message [] })] := by
  simp [Logger.UseRiemann, Logger.NewModule, Logger.Infoln, Logger.sendRiemann]

/-- C6: `UseRiemann nil` returns the `ErrClientNil` error and leaves the
logger unchanged — a previously attached client stays attached and keeps
receiving events — while `UseRiemann` on a non-nil client succeeds and
rebinds the reference. -/
theorem useRiemann_nil (l : Logger) (c c' : ClientId) (sprintf : Sprintf)
    (now message : String) (h : l.riemannClient = some c) :
    (l.UseRiemann none).2 = some RiemannError.ErrClientNil
    ∧ (l.UseRiemann none).1 = l
    ∧ ((l.UseRiemann none).1.Infoln sprintf now message).2
        = [(c, { Service := l.config.Prefix, State := "INFO",
                 Description := sprintf message [] })]
    ∧ (l.UseRiemann (some c')).2 = none
    ∧ (l.UseRiemann (some c')).1.riemannClient = some c' := by
  simp [Logger.UseRiemann, Logger.Infoln, Logger.sendRiemann, h]

/-- Witness for C6: with client `3` attached, `UseRiemann nil` errs, keeps
client `3` receiving `Infoln` events, and `UseRiemann (some 5)` rebinds. -/
theorem useRiemann_nil_witness :
    (({ config := DefaultLoggerConfig, level := 4, riemannClient := some 3 :
          Logger }).UseRiemann none).2 = some RiemannError.ErrClientNil
    ∧ ((({ config := DefaultLoggerConfig, level := 4, riemannClient := some 3 :
          Logger }).UseRiemann none).1.Infoln (fun m _ => m) "T" "up").2
        = [(3, { Service := "service", State := "INFO", Description := "up" })]
    ∧ (({ config := DefaultLoggerConfig, level := 4, riemannClient := some 3 :
          Logger }).UseRiemann (some 5)).1.riemannClient = some 5 := by
  have h := useRiemann_nil
    { config := DefaultLoggerConfig, level := 4, riemannClient := some 3 }
    3 5 (fun m _ => m) "T" "up" rfl
  exact ⟨h.1, h.2.2.1, h.2.2.2.2⟩

end GoLog
